/-
Verification of the ai-gateway request-plane against its specification.

Shallow embedding of the TypeScript source:
  * src/lib/errors.ts               — ProxyError, error factories, handleProxyError
  * rate limiter (SlidingWindowRateLimiter.check)
  * src/lib/rotation/account-rotation.ts — health engine and account selector
  * router (resolveRoute)
  * src/lib/proxy/streaming.ts      — SSE streaming transformer buffering
  * SSRF guard (validateBaseUrl)
  * response normalizer (normalizeOpenAI / normalizeResponse)
  * the /v1/chat/completions and /v1/completions pre-dispatch pipelines

Machine times are modelled as Int (milliseconds, as produced by Date.now()),
scores as ℚ (JS numbers used here stay exact rationals), and JS strings as
Lean Strings or List Char where line-splitting is involved.  Effects (DB
reads, fetch, crypto, URL parsing) are passed in as explicit oracle values,
so every function is the pure control-flow skeleton of its source.
-/

import Mathlib

namespace Gateway

/-! ## Errors (src/lib/errors.ts) -/

/-- The data carried by the ProxyError class. -/
structure ProxyErr where
  statusCode : Nat
  code : String
  message : String
  deriving DecidableEq, Repr

/-- A JS exception value as seen by a catch block: either a ProxyError
instance or some other Error (identified by its name and message). -/
inductive JsError where
  | proxy (e : ProxyErr)
  | other (name : String) (message : String)
  deriving DecidableEq, Repr

namespace Errors

def unauthorized : ProxyErr := ⟨401, "invalid_api_key", "Invalid API key"⟩

def rateLimited : ProxyErr := ⟨429, "rate_limit_exceeded", "Rate limit exceeded"⟩

def modelNotFound (model : String) : ProxyErr :=
  ⟨404, "model_not_found", "Model " ++ model ++ " not found"⟩

def providerError (msg : String) : ProxyErr := ⟨502, "provider_error", msg⟩

def timeout : ProxyErr := ⟨504, "timeout", "Request timed out"⟩

def internal (msg : String) : ProxyErr := ⟨500, "internal_error", msg⟩

def badRequest (msg : String) : ProxyErr := ⟨400, "bad_request", msg⟩

end Errors

/-- The JSON error response body produced by ProxyError.toResponse. -/
structure ErrorResponse where
  status : Nat
  errType : String
  errCode : String
  message : String
  deriving DecidableEq, Repr

/-- ProxyError.toResponse: status from the error, type and code both set to
the error code. -/
def toResponse (e : ProxyErr) : ErrorResponse :=
  ⟨e.statusCode, e.code, e.code, e.message⟩

/-- handleProxyError: a ProxyError is rendered as-is; any other exception is
rendered through Errors.internal (HTTP 500, code internal_error).  The
production flag only selects the message text. -/
def handleProxyError (err : JsError) (production : Bool) : ErrorResponse :=
  match err with
  | .proxy e => toResponse e
  | .other _ message =>
      toResponse (Errors.internal (if production then "Internal server error" else message))

/-- The exception fetch rejects with when its AbortSignal fires at the
timeout_ms deadline set in buildUpstreamRequest: a DOMException named
AbortError, not a ProxyError. -/
def abortError : JsError := .other "AbortError" "This operation was aborted"

/-! ## Rate limiter (SlidingWindowRateLimiter.check) -/

structure WindowEntry where
  count : Nat
  windowStart : Int
  deriving DecidableEq, Repr

structure RateLimitResult where
  allowed : Bool
  remaining : Int
  resetAt : Int
  deriving DecidableEq, Repr

/-- The windows map of the limiter, keyed by rate-limit key. -/
def Windows : Type := String → Option WindowEntry

def emptyWindows : Windows := fun _ => none

def Windows.set (w : Windows) (key : String) (e : WindowEntry) : Windows :=
  fun k => if k = key then some e else w k

/-- SlidingWindowRateLimiter.check: start a fresh window when there is no
entry or the current one is older than windowMs; deny once the count has
reached maxRequests; otherwise increment and allow. -/
def check (w : Windows) (key : String) (maxRequests : Nat) (windowMs : Int)
    (now : Int) : RateLimitResult × Windows :=
  match w key with
  | none =>
      (⟨true, (maxRequests : Int) - 1, now + windowMs⟩,
       w.set key ⟨1, now⟩)
  | some entry =>
      if now - entry.windowStart ≥ windowMs then
        (⟨true, (maxRequests : Int) - 1, now + windowMs⟩,
         w.set key ⟨1, now⟩)
      else if entry.count ≥ maxRequests then
        (⟨false, 0, entry.windowStart + windowMs⟩, w)
      else
        (⟨true, (maxRequests : Int) - (entry.count + 1),
          entry.windowStart + windowMs⟩,
         w.set key ⟨entry.count + 1, entry.windowStart⟩)

/-- Run a sequence of check calls on one key, collecting the results. -/
def runCalls (w : Windows) (key : String) (maxRequests : Nat) (windowMs : Int) :
    List Int → List RateLimitResult × Windows
  | [] => ([], w)
  | t :: ts =>
      let r := check w key maxRequests windowMs t
      let rest := runCalls r.2 key maxRequests windowMs ts
      (r.1 :: rest.1, rest.2)

/-! ## Health engine (src/lib/rotation/account-rotation.ts) -/

def INITIAL_HEALTH_SCORE : ℚ := 70
def MAX_HEALTH_SCORE : ℚ := 100
def MIN_USABLE_SCORE : ℚ := 20
def SUCCESS_REWARD : ℚ := 2
def FAILURE_PENALTY : ℚ := 15
def RATE_LIMIT_PENALTY : ℚ := 25
def RECOVERY_RATE : ℚ := 1

structure HealthState where
  score : ℚ
  lastUpdate : Int
  lastUsed : Int
  deriving DecidableEq, Repr

/-- The in-memory healthMap: per-account-id optional state. -/
def HealthMap : Type := String → Option HealthState

def HealthMap.set (hm : HealthMap) (id : String) (st : HealthState) : HealthMap :=
  fun k => if k = id then some st else hm k

/-- The passive-recovery step applied inside getHealthState: add
RECOVERY_RATE per elapsed minute since lastUpdate, capped at
MAX_HEALTH_SCORE, and refresh lastUpdate — but only when the elapsed
time is strictly positive. -/
def applyRecovery (st : HealthState) (now : Int) : HealthState :=
  let minutesSinceUpdate : ℚ := ((now - st.lastUpdate : Int) : ℚ) / 60000
  if 0 < minutesSinceUpdate then
    { st with
      score := min MAX_HEALTH_SCORE (st.score + minutesSinceUpdate * RECOVERY_RATE),
      lastUpdate := now }
  else st

/-- getHealthState: lazily create the entry at INITIAL_HEALTH_SCORE, then
apply passive recovery. -/
def getHealthState (hm : HealthMap) (id : String) (now : Int) : HealthState :=
  let st := (hm id).getD ⟨INITIAL_HEALTH_SCORE, now, 0⟩
  applyRecovery st now

/-- getHealthState including its write-back into the map. -/
def touchHealth (hm : HealthMap) (id : String) (now : Int) : HealthMap :=
  hm.set id (getHealthState hm id now)

/-- recordSuccess: recovery, then +SUCCESS_REWARD capped at MAX. -/
def recordSuccess (hm : HealthMap) (id : String) (now : Int) : HealthMap :=
  let st := getHealthState hm id now
  hm.set id { st with score := min MAX_HEALTH_SCORE (st.score + SUCCESS_REWARD),
                      lastUpdate := now }

/-- recordFailure: recovery, then −FAILURE_PENALTY floored at 0. -/
def recordFailure (hm : HealthMap) (id : String) (now : Int) : HealthMap :=
  let st := getHealthState hm id now
  hm.set id { st with score := max 0 (st.score - FAILURE_PENALTY),
                      lastUpdate := now }

/-- recordRateLimit: recovery, then −RATE_LIMIT_PENALTY floored at 0. -/
def recordRateLimit (hm : HealthMap) (id : String) (now : Int) : HealthMap :=
  let st := getHealthState hm id now
  hm.set id { st with score := max 0 (st.score - RATE_LIMIT_PENALTY),
                      lastUpdate := now }

/-- One observable event on the health engine, tagged with the Date.now()
value at which it runs.  `read` is a bare getHealthState (passive decay),
as performed by the selector. -/
inductive HealthEvent where
  | success (now : Int)
  | failure (now : Int)
  | rateLimit (now : Int)
  | read (now : Int)
  deriving DecidableEq, Repr

def applyEvent (hm : HealthMap) : HealthEvent → HealthMap
  | .success now => recordSuccess hm "acct" now
  | .failure now => recordFailure hm "acct" now
  | .rateLimit now => recordRateLimit hm "acct" now
  | .read now => touchHealth hm "acct" now

def applyEvents (hm : HealthMap) : List HealthEvent → HealthMap
  | [] => hm
  | e :: es => applyEvents (applyEvent hm e) es

/-! ## Account selector (selectBestAccount) -/

structure OAuthAccountRow where
  id : String
  providerId : String
  encryptedAccessToken : String
  encryptedRefreshToken : String
  expiresAt : Int
  lastUsedAt : Int
  isActive : Bool
  deriving DecidableEq, Repr

/-- Stable ascending insertion by lastUsedAt (the ORDER BY of the account
query). -/
def insertByLastUsedAt (a : OAuthAccountRow) :
    List OAuthAccountRow → List OAuthAccountRow
  | [] => [a]
  | b :: bs =>
      if a.lastUsedAt < b.lastUsedAt then a :: b :: bs
      else b :: insertByLastUsedAt a bs

def sortByLastUsedAt (l : List OAuthAccountRow) : List OAuthAccountRow :=
  l.foldr insertByLastUsedAt []

/-- The DB query in selectBestAccount: active accounts of the provider,
ordered by ascending lastUsedAt. -/
def accountQuery (table : List OAuthAccountRow) (providerId : String) :
    List OAuthAccountRow :=
  sortByLastUsedAt
    (table.filter fun a => a.providerId = providerId ∧ a.isActive = true)

/-- The Array.prototype.reduce in the all-unhealthy branch: keep the
accumulator unless the score of the next account is strictly greater. -/
def pickHealthiest (score : String → ℚ) :
    OAuthAccountRow → List OAuthAccountRow → OAuthAccountRow
  | best, [] => best
  | best, a :: as =>
      pickHealthiest score (if score best.id < score a.id then a else best) as

/-- Stable descending insertion by composite score (Array.prototype.sort
with comparator b.totalScore − a.totalScore; V8 sort is stable). -/
def insertByTotalDesc (x : OAuthAccountRow × ℚ) :
    List (OAuthAccountRow × ℚ) → List (OAuthAccountRow × ℚ)
  | [] => [x]
  | y :: ys =>
      if y.2 < x.2 then x :: y :: ys
      else y :: insertByTotalDesc x ys

def sortByTotalDesc (l : List (OAuthAccountRow × ℚ)) :
    List (OAuthAccountRow × ℚ) :=
  l.foldr insertByTotalDesc []

/-- The outcome of selectBestAccount: the chosen row (if any), the
healthMap after the call, and the list of account ids whose lastUsedAt
the function writes back to the DB. -/
structure SelectOutcome where
  selected : Option OAuthAccountRow
  healthMap : HealthMap
  dbLastUsedWrites : List String

/-- The healthMap after getHealthState has touched every account in the
list, as the usable filter of selectBestAccount does. -/
def touchAll (l : List OAuthAccountRow) (hm : HealthMap) (now : Int) :
    HealthMap :=
  l.foldl (fun m a => touchHealth m a.id now) hm

/-- selectBestAccount: query active accounts by LRU order, recompute scores
(with passive decay), partition by MIN_USABLE_SCORE; if none is usable
return the healthiest without marking it; otherwise rank by
0.6·health + 0.4·recency, mark the winner used (in memory and in the DB)
and return it. -/
def selectBestAccount (table : List OAuthAccountRow) (hm : HealthMap)
    (providerId : String) (now : Int) : SelectOutcome :=
  let accounts := accountQuery table providerId
  match accounts with
  | [] => ⟨none, hm, []⟩
  | a0 :: rest =>
      -- every account is touched by getHealthState during the usable filter
      let hm1 := touchAll (a0 :: rest) hm now
      let score := fun id => (getHealthState hm1 id now).score
      let usable := (a0 :: rest).filter fun a => MIN_USABLE_SCORE ≤ score a.id
      match usable with
      | [] => ⟨some (pickHealthiest score a0 rest), hm1, []⟩
      | _ :: _ =>
          let scored := usable.map fun a =>
            let health := getHealthState hm1 a.id now
            let recencyScore : ℚ :=
              min 100 (((now - health.lastUsed : Int) : ℚ) / 60000)
            (a, health.score * (6 / 10) + recencyScore * (4 / 10))
          match sortByTotalDesc scored with
          | [] => ⟨none, hm1, []⟩
          | best :: _ =>
              let sel := best.1
              let st := getHealthState hm1 sel.id now
              ⟨some sel, hm1.set sel.id { st with lastUsed := now }, [sel.id]⟩

/-- The observable in-memory lastUsed of an account (absent entries read
as the lazy-initialization value 0). -/
def lastUsedObs (hm : HealthMap) (id : String) : Int :=
  ((hm id).getD ⟨INITIAL_HEALTH_SCORE, 0, 0⟩).lastUsed

/-! ## Router (resolveRoute) -/

structure ModelRow where
  id : String
  providerId : String
  publicName : String
  upstreamModelName : String
  supportsStreaming : Bool
  priority : Int
  isActive : Bool
  deriving DecidableEq, Repr

structure ProviderRow where
  id : String
  name : String
  type : String
  baseUrl : String
  authType : String
  encryptedCredentials : Option String
  timeout : Int
  isActive : Bool
  deriving DecidableEq, Repr

/-- One row of the candidates query (models INNER JOIN providers). -/
structure Candidate where
  model : ModelRow
  provider : ProviderRow
  deriving DecidableEq, Repr

def insertByPriority (c : Candidate) : List Candidate → List Candidate
  | [] => [c]
  | d :: ds =>
      if c.model.priority < d.model.priority then c :: d :: ds
      else d :: insertByPriority c ds

def sortByPriority (l : List Candidate) : List Candidate :=
  l.foldr insertByPriority []

/-- The candidates query of resolveRoute: models joined with providers on
providerId, filtered to the requested publicName with both sides active,
ordered by ascending priority, limited to 5 rows. -/
def queryCandidates (ms : List ModelRow) (ps : List ProviderRow)
    (modelName : String) : List Candidate :=
  (sortByPriority
    ((ms.flatMap fun m => (ps.filter fun p => p.id = m.providerId).map (Candidate.mk m))
      |>.filter fun c =>
        c.model.publicName = modelName ∧
        c.model.isActive = true ∧ c.provider.isActive = true)).take 5

structure ResolvedOAuth where
  id : String
  accessToken : String
  deriving DecidableEq, Repr

structure ResolvedRoute where
  providerId : String
  providerName : String
  providerType : String
  baseUrl : String
  authType : String
  timeout : Int
  credentials : Option String
  modelId : String
  publicName : String
  upstreamModelName : String
  supportsStreaming : Bool
  oauthAccount : Option ResolvedOAuth
  deriving DecidableEq, Repr

/-- The effectful collaborators of resolveRoute, passed in as oracles:
the SSRF guard verdict per base URL, decrypt (none models a thrown
exception), selectBestAccount per provider id, and refreshIfExpired
(error models a thrown exception). -/
structure RouteOracle where
  ssrfValid : String → Bool
  decryptR : String → Option String
  selectAccount : String → Option OAuthAccountRow
  refresh : OAuthAccountRow → String → Except String OAuthAccountRow

/-- The per-candidate loop body of resolveRoute iteration: none means the
candidate is skipped (continue), some means the route is returned. -/
def tryCandidate (o : RouteOracle) (c : Candidate) : Option ResolvedRoute :=
  if o.ssrfValid c.provider.baseUrl = false then none
  else
    let creds? : Option (Option String) :=
      match c.provider.encryptedCredentials with
      | none => some none
      | some enc =>
          match o.decryptR enc with
          | none => none            -- decrypt threw: caught, continue
          | some cred => some (some cred)
    match creds? with
    | none => none
    | some credentials =>
        if c.provider.authType = "oauth" then
          match o.selectAccount c.provider.id with
          | none => none            -- no available OAuth account: continue
          | some account =>
              match o.refresh account c.provider.type with
              | .error _ => none    -- refresh threw: outer catch, continue
              | .ok refreshed =>
                  match o.decryptR refreshed.encryptedAccessToken with
                  | none => none    -- decrypt threw: outer catch, continue
                  | some accessToken =>
                      some ⟨c.provider.id, c.provider.name, c.provider.type,
                            c.provider.baseUrl, c.provider.authType,
                            c.provider.timeout, credentials,
                            c.model.id, c.model.publicName,
                            c.model.upstreamModelName,
                            c.model.supportsStreaming,
                            some ⟨refreshed.id, accessToken⟩⟩
        else
          some ⟨c.provider.id, c.provider.name, c.provider.type,
                c.provider.baseUrl, c.provider.authType,
                c.provider.timeout, credentials,
                c.model.id, c.model.publicName, c.model.upstreamModelName,
                c.model.supportsStreaming, none⟩

def firstViable (o : RouteOracle) : List Candidate → Option ResolvedRoute
  | [] => none
  | c :: cs =>
      match tryCandidate o c with
      | some r => some r
      | none => firstViable o cs

/-- resolveRoute: empty candidate list throws ModelNotFound; otherwise the
first viable candidate is returned, and if the whole fallback chain fails
the NoAvailableProvider 502 is thrown. -/
def resolveRoute (o : RouteOracle) (ms : List ModelRow) (ps : List ProviderRow)
    (modelName : String) : Except ProxyErr ResolvedRoute :=
  let rows := queryCandidates ms ps modelName
  match rows with
  | [] => .error (Errors.modelNotFound modelName)
  | _ :: _ =>
      match firstViable o rows with
      | some r => .ok r
      | none =>
          .error (Errors.providerError
            ("No available provider for model " ++ modelName))

/-! ## Streaming transformer (src/lib/proxy/streaming.ts)

The transform callback decodes each chunk with a streaming TextDecoder, so
when the byte chunks split on UTF-8 boundaries the transformer sees exactly
the character sequences; we model text as List Char.  The per-frame JSON
work (JSON.parse, transformChunk, JSON.stringify) is deterministic in the
line, so it enters the model as the oracle jsonEmit, returning none when the
parse fails or transformChunk returns null. -/

/-- buffer.split(newline) up to the popped final element: the list of
complete lines and the trailing partial line kept as the new buffer. -/
def splitLines : List Char → List (List Char) × List Char
  | [] => ([], [])
  | c :: cs =>
      let r := splitLines cs
      if c = '\n' then ([] :: r.1, r.2)
      else
        match r.1 with
        | [] => ([], c :: r.2)
        | l :: ls => ((c :: l) :: ls, r.2)

/-- JS String.prototype.trim on the whitespace that can occur in SSE lines. -/
def isJsSpace (c : Char) : Bool :=
  c = ' ' ∨ c = '\t' ∨ c = '\n' ∨ c = '\r' ∨ c = '\x0b' ∨ c = '\x0c'

def trimChars (l : List Char) : List Char :=
  ((l.dropWhile isJsSpace).reverse.dropWhile isJsSpace).reverse

def doneLine : List Char := "data: [DONE]".data
def doneFrame : List Char := "data: [DONE]\n\n".data
def dataMarker : List Char := "data:".data

/-- Processing of one complete line inside the transform loop: skip blanks
and comment lines, re-emit [DONE], skip non-data lines, and otherwise hand
the JSON payload to jsonEmit, wrapping any produced chunk as an SSE frame. -/
def handleLine (jsonEmit : List Char → Option (List Char))
    (line : List Char) : List Char :=
  let trimmed := trimChars line
  if trimmed = [] then []
  else if trimmed.take 1 = [':'] then []
  else if trimmed = doneLine then doneFrame
  else if ¬ dataMarker.isPrefixOf trimmed then []
  else
    let jsonStr := trimChars (trimmed.drop 5)
    if jsonStr = [] then []
    else
      match jsonEmit jsonStr with
      | none => []
      | some chunk => "data: ".data ++ chunk ++ "\n\n".data

/-- One call of the transform callback: append the chunk to the residual
buffer, split off the complete lines, keep the partial tail, and emit the
concatenation of the per-line outputs.  Returns (new buffer, output). -/
def transformStep (jsonEmit : List Char → Option (List Char))
    (buffer chunk : List Char) : List Char × List Char :=
  let r := splitLines (buffer ++ chunk)
  (r.2, (r.1.map (handleLine jsonEmit)).flatten)

/-- The flush callback: re-emit a buffered [DONE], then always terminate
with [DONE]. -/
def flushStep (buffer : List Char) : List Char :=
  (if trimChars buffer ≠ [] ∧ trimChars buffer = doneLine then doneFrame else [])
    ++ doneFrame

/-! ## SSRF guard (validateBaseUrl) -/

/-- The parts of a WHATWG URL object that validateBaseUrl inspects. -/
structure UrlParts where
  protocol : String
  hostname : String
  deriving DecidableEq, Repr

structure SsrfConfig where
  disableSsrfProtection : Bool
  production : Bool
  allowedHosts : List String
  deriving DecidableEq, Repr

structure SsrfResult where
  valid : Bool
  reason : Option String
  deriving DecidableEq, Repr

/-- PRIVATE_IP_PATTERNS: each regex over the hostname, as a Boolean test. -/
def isPrivateHost (hostname : String) : Bool :=
  "127.".isPrefixOf hostname ∨
  "10.".isPrefixOf hostname ∨
  (("172.16.".isPrefixOf hostname ∨ "172.17.".isPrefixOf hostname ∨
    "172.18.".isPrefixOf hostname ∨ "172.19.".isPrefixOf hostname) ∨
   ("172.20.".isPrefixOf hostname ∨ "172.21.".isPrefixOf hostname ∨
    "172.22.".isPrefixOf hostname ∨ "172.23.".isPrefixOf hostname ∨
    "172.24.".isPrefixOf hostname ∨ "172.25.".isPrefixOf hostname) ∨
   ("172.26.".isPrefixOf hostname ∨ "172.27.".isPrefixOf hostname ∨
    "172.28.".isPrefixOf hostname ∨ "172.29.".isPrefixOf hostname ∨
    "172.30.".isPrefixOf hostname ∨ "172.31.".isPrefixOf hostname)) ∨
  "192.168.".isPrefixOf hostname ∨
  "0.".isPrefixOf hostname ∨
  "169.254.".isPrefixOf hostname ∨
  hostname = "::1" ∨
  "fc00:".isPrefixOf hostname ∨
  "fe80:".isPrefixOf hostname ∨
  "fd".isPrefixOf hostname ∨
  hostname.toLower = "localhost"

/-- validateBaseUrl.  The WHATWG URL constructor is a platform primitive and
enters the model as the oracle parseUrl; `new URL` throwing is parseUrl
returning none, and the surrounding try/catch turns that throw into the
Invalid URL rejection.  Note the parse happens before the
disableSsrfProtection check, exactly as in the source. -/
def validateBaseUrl (parseUrl : String → Option UrlParts) (cfg : SsrfConfig)
    (baseUrl : String) : SsrfResult :=
  match parseUrl baseUrl with
  | none => ⟨false, some "Invalid URL"⟩
  | some url =>
      if cfg.disableSsrfProtection then ⟨true, none⟩
      else if cfg.production ∧ url.protocol ≠ "https:" then
        ⟨false, some "HTTPS required in production"⟩
      else if isPrivateHost url.hostname then
        ⟨false, some "Private internal hosts not allowed"⟩
      else if cfg.allowedHosts.length ≠ 0 ∧
          ¬ cfg.allowedHosts.contains url.hostname.toLower then
        ⟨false, some ("Host " ++ url.hostname ++ " not in allowlist")⟩
      else ⟨true, none⟩

/-! ## Response normalizer (normalizeResponse / normalizeOpenAI)

JSON field reads such as `upstream.id as string` are modelled as Option
String; the JS `||` fallback treats the empty string (falsy) the same as an
absent field.  The freshly minted id and created timestamp are oracles. -/

structure OpenAIUsage where
  prompt_tokens : Nat
  completion_tokens : Nat
  total_tokens : Nat
  deriving DecidableEq, Repr

/-- The fields of an upstream OpenAI-shaped response body that
normalizeOpenAI inspects. -/
structure UpstreamOpenAI where
  id : Option String
  created : Option Nat
  model : Option String
  choices : Option String   -- opaque payload, copied through
  usage : Option OpenAIUsage
  deriving DecidableEq, Repr

structure ChatCompletion where
  id : String
  object : String
  created : Nat
  model : String
  choices : Option String
  usage : OpenAIUsage
  deriving DecidableEq, Repr

/-- JS `x || y` on an optional string field: falls back when the field is
absent or holds the falsy empty string. -/
def strOr (x : Option String) (y : String) : String :=
  match x with
  | none => y
  | some s => if s = "" then y else s

def natOr (x : Option Nat) (y : Nat) : Nat :=
  match x with
  | none => y
  | some n => if n = 0 then y else n

/-- normalizeOpenAI: fill in id/created when missing, take the upstream
model when present (and truthy) else the public model name, copy choices,
default usage counters to 0. -/
def normalizeOpenAI (upstream : UpstreamOpenAI) (model : String)
    (freshId : String) (nowSec : Nat) : ChatCompletion :=
  { id := strOr upstream.id ("chatcmpl-" ++ freshId)
    object := "chat.completion"
    created := natOr upstream.created nowSec
    model := strOr upstream.model model
    choices := upstream.choices
    usage :=
      { prompt_tokens := ((upstream.usage.map (·.prompt_tokens)).getD 0)
        completion_tokens := ((upstream.usage.map (·.completion_tokens)).getD 0)
        total_tokens := ((upstream.usage.map (·.total_tokens)).getD 0) } }

/-- The switch in normalizeResponse, restricted to the OpenAI-shaped
branches the claim is about: openai, custom, oauth and the default branch
all go through normalizeOpenAI.  The google and anthropic branches are
distinct functions that never reach normalizeOpenAI; the claim does not
touch them and they are left out of the model. -/
def normalizeResponseOpenAILike (upstream : UpstreamOpenAI)
    (providerType : String) (model : String) (freshId : String) (nowSec : Nat)
    (hOpenAILike : providerType = "openai" ∨ providerType = "custom" ∨
      providerType = "oauth") : ChatCompletion :=
  match providerType, hOpenAILike with
  | _, _ => normalizeOpenAI upstream model freshId nowSec

/-! ## Endpoint pipelines (/v1/chat/completions and /v1/completions)

The pre-dispatch control flow of the two POST handlers, with the effectful
collaborators (auth lookup, rate-limit verdicts, body parse, resolveRoute)
passed in as their observed results.  The outcome distinguishes an error
response thrown before dispatch from the upstream dispatch itself. -/

structure RequestBody where
  model : Option String
  stream : Bool
  deriving DecidableEq, Repr

inductive PipelineOutcome where
  | errorResponse (e : ProxyErr)
  | dispatch (route : ResolvedRoute) (streaming : Bool)
  deriving DecidableEq, Repr

structure PipelineEnv where
  bearerToken : Option String
  apiKeyFound : Bool
  globalAllowed : Bool
  keyAllowed : Bool
  body : RequestBody
  routeResult : Except ProxyErr ResolvedRoute

/-- /v1/chat/completions POST, steps 1–6: auth, global and per-key rate
limits, body checks, route resolution, and the supportsStreaming gate,
ending at the upstream fetch. -/
def chatCompletionsPipeline (env : PipelineEnv) : PipelineOutcome :=
  match env.bearerToken with
  | none => .errorResponse Errors.unauthorized
  | some _ =>
      if env.apiKeyFound = false then .errorResponse Errors.unauthorized
      else if env.globalAllowed = false then .errorResponse Errors.rateLimited
      else if env.keyAllowed = false then .errorResponse Errors.rateLimited
      else
        match env.body.model with
        | none => .errorResponse (Errors.badRequest "Missing model field")
        | some modelName =>
            let streaming := env.body.stream
            match env.routeResult with
            | .error e => .errorResponse e
            | .ok route =>
                if streaming ∧ route.supportsStreaming = false then
                  .errorResponse (Errors.badRequest
                    ("Model " ++ modelName ++ " does not support streaming"))
                else .dispatch route streaming

/-- /v1/completions POST up to the upstream fetch: same auth, rate-limit,
body and routing steps, but the handler has no supportsStreaming check. -/
def completionsPipeline (env : PipelineEnv) : PipelineOutcome :=
  match env.bearerToken with
  | none => .errorResponse Errors.unauthorized
  | some _ =>
      if env.apiKeyFound = false then .errorResponse Errors.unauthorized
      else if env.globalAllowed = false then .errorResponse Errors.rateLimited
      else if env.keyAllowed = false then .errorResponse Errors.rateLimited
      else
        match env.body.model with
        | none => .errorResponse (Errors.badRequest "Missing model field")
        | some _ =>
            let streaming := env.body.stream
            match env.routeResult with
            | .error e => .errorResponse e
            | .ok route => .dispatch route streaming

/-! ## Theorems -/

/-- C1: when the provider timeout_ms deadline aborts the upstream fetch, the
rejection is an AbortError rather than a ProxyError, so handleProxyError
renders HTTP 500 with wire code internal_error — not the Timeout kind
(504, timeout) that errors.ts defines but never raises. -/
theorem handleProxyError_abort_is_internal_error :
    handleProxyError abortError false =
      ⟨500, "internal_error", "internal_error", "This operation was aborted"⟩ ∧
    handleProxyError abortError true =
      ⟨500, "internal_error", "internal_error", "Internal server error"⟩ ∧
    (handleProxyError abortError false).status ≠ Errors.timeout.statusCode ∧
    (handleProxyError abortError false).errCode ≠ Errors.timeout.code ∧
    Errors.timeout = ⟨504, "timeout", "Request timed out"⟩ := by
  refine ⟨rfl, rfl, ?_, ?_, rfl⟩ <;> decide

/-- C2 counterexample: on /v1/completions a request with stream=true whose
resolved model has supportsStreaming=false is dispatched upstream, not
rejected with bad_request — the handler has no streaming-support check. -/
theorem completions_streaming_unchecked :
    completionsPipeline
      { bearerToken := some "sk-gw-test"
        apiKeyFound := true
        globalAllowed := true
        keyAllowed := true
        body := { model := some "gpt-4o", stream := true }
        routeResult := .ok
          { providerId := "p1", providerName := "op", providerType := "openai"
            baseUrl := "https://api.openai.com", authType := "bearer"
            timeout := 30000, credentials := some "sk-X"
            modelId := "m1", publicName := "gpt-4o"
            upstreamModelName := "gpt-4o-2024-08-06"
            supportsStreaming := false, oauthAccount := none } } =
    .dispatch
      { providerId := "p1", providerName := "op", providerType := "openai"
        baseUrl := "https://api.openai.com", authType := "bearer"
        timeout := 30000, credentials := some "sk-X"
        modelId := "m1", publicName := "gpt-4o"
        upstreamModelName := "gpt-4o-2024-08-06"
        supportsStreaming := false, oauthAccount := none } true := by
  decide

/-- C2 amended: on /v1/chat/completions, stream=true with a resolved model
whose supportsStreaming is false fails with the 400 bad_request error before
any upstream dispatch. -/
theorem chatCompletions_streaming_check (env : PipelineEnv) (tk : String)
    (route : ResolvedRoute) (modelName : String)
    (htk : env.bearerToken = some tk)
    (hkey : env.apiKeyFound = true)
    (hg : env.globalAllowed = true)
    (hk : env.keyAllowed = true)
    (hm : env.body.model = some modelName)
    (hs : env.body.stream = true)
    (hr : env.routeResult = .ok route)
    (hns : route.supportsStreaming = false) :
    chatCompletionsPipeline env =
      .errorResponse (Errors.badRequest
        ("Model " ++ modelName ++ " does not support streaming")) ∧
    (Errors.badRequest
        ("Model " ++ modelName ++ " does not support streaming")).statusCode = 400 ∧
    (Errors.badRequest
        ("Model " ++ modelName ++ " does not support streaming")).code =
      "bad_request" := by
  refine ⟨?_, rfl, rfl⟩
  unfold chatCompletionsPipeline
  rw [htk, hkey, hg, hk, hm, hr]
  simp [hs, hns]

/-- C2 witness: the amended chat-completions gate at a concrete request. -/
theorem chatCompletions_streaming_check_witness :
    chatCompletionsPipeline
      { bearerToken := some "sk-gw-test"
        apiKeyFound := true
        globalAllowed := true
        keyAllowed := true
        body := { model := some "gpt-4o", stream := true }
        routeResult := .ok
          { providerId := "p1", providerName := "op", providerType := "openai"
            baseUrl := "https://api.openai.com", authType := "bearer"
            timeout := 30000, credentials := some "sk-X"
            modelId := "m1", publicName := "gpt-4o"
            upstreamModelName := "gpt-4o-2024-08-06"
            supportsStreaming := false, oauthAccount := none } } =
      .errorResponse (Errors.badRequest
        ("Model " ++ "gpt-4o" ++ " does not support streaming")) := by
  exact (chatCompletions_streaming_check _ "sk-gw-test"
    { providerId := "p1", providerName := "op", providerType := "openai"
      baseUrl := "https://api.openai.com", authType := "bearer"
      timeout := 30000, credentials := some "sk-X"
      modelId := "m1", publicName := "gpt-4o"
      upstreamModelName := "gpt-4o-2024-08-06"
      supportsStreaming := false, oauthAccount := none }
    "gpt-4o" rfl rfl rfl rfl rfl rfl rfl rfl).1

/-- C6 counterexample: with SSRF protection disabled, an input string on
which the URL constructor throws (modelled by the parse oracle returning
none, as new URL does on a scheme-less string) is still rejected as Invalid
URL: the parse attempt precedes the disabled-check, so the claimed
"valid for every input" is false. -/
theorem validateBaseUrl_disabled_parse_failure :
    validateBaseUrl (fun _ => none)
      { disableSsrfProtection := true, production := false, allowedHosts := [] }
      "not a url" = ⟨false, some "Invalid URL"⟩ ∧
    (validateBaseUrl (fun _ => none)
      { disableSsrfProtection := true, production := false, allowedHosts := [] }
      "not a url").valid ≠ true := by
  exact ⟨rfl, by decide⟩

/-- C6 amended: when SSRF protection is disabled by config, validateBaseUrl
returns valid for every input that the URL constructor accepts; the
disabled-check is the first rule applied after the parse, so no scheme,
private-host or allowlist rule is consulted. -/
theorem validateBaseUrl_disabled_allows (parseUrl : String → Option UrlParts)
    (cfg : SsrfConfig) (baseUrl : String) (u : UrlParts)
    (hdis : cfg.disableSsrfProtection = true)
    (hparse : parseUrl baseUrl = some u) :
    validateBaseUrl parseUrl cfg baseUrl = ⟨true, none⟩ := by
  unfold validateBaseUrl
  rw [hparse]
  simp [hdis]

/-- C6 witness: the disabled guard admits a private HTTP URL that would fail
every other rule. -/
theorem validateBaseUrl_disabled_allows_witness :
    validateBaseUrl (fun _ => some ⟨"http:", "127.0.0.1"⟩)
      { disableSsrfProtection := true, production := true, allowedHosts := ["api.openai.com"] }
      "http://127.0.0.1:8080" = ⟨true, none⟩ :=
  validateBaseUrl_disabled_allows (fun _ => some ⟨"http:", "127.0.0.1"⟩)
    { disableSsrfProtection := true, production := true, allowedHosts := ["api.openai.com"] }
    "http://127.0.0.1:8080" ⟨"http:", "127.0.0.1"⟩ rfl rfl

/-- C10 counterexample: an upstream body that includes the model field with
the empty string is not passed through verbatim: the JS falsy check
substitutes the gateway public name. -/
theorem normalizeOpenAI_empty_model_substituted :
    (normalizeResponseOpenAILike
      { id := some "x", created := some 1, model := some "", choices := none,
        usage := none }
      "openai" "gpt-4o" "f" 7 (Or.inl rfl)).model = "gpt-4o" ∧
    ("gpt-4o" : String) ≠ "" := by
  exact ⟨rfl, by decide⟩

/-- C10 amended: for providers of type openai, custom or oauth,
normalizeResponse keeps the upstream model field verbatim whenever the
upstream includes a non-empty model string, and substitutes the public
model name when the field is absent or empty. -/
theorem normalizeResponse_model_passthrough (up : UpstreamOpenAI)
    (pt model freshId : String) (nowSec : Nat)
    (h : pt = "openai" ∨ pt = "custom" ∨ pt = "oauth") :
    (∀ s, up.model = some s → s ≠ "" →
      (normalizeResponseOpenAILike up pt model freshId nowSec h).model = s) ∧
    ((up.model = none ∨ up.model = some "") →
      (normalizeResponseOpenAILike up pt model freshId nowSec h).model = model) := by
  constructor
  · intro s hs hne
    simp [normalizeResponseOpenAILike, normalizeOpenAI, strOr, hs, hne]
  · rintro (hs | hs) <;>
      simp [normalizeResponseOpenAILike, normalizeOpenAI, strOr, hs]

/-- C10 witness: a present upstream model is returned verbatim, an absent
one falls back to the public name. -/
theorem normalizeResponse_model_passthrough_witness :
    (normalizeResponseOpenAILike
      { id := some "x", created := some 1, model := some "gpt-4o-2024-08-06",
        choices := none, usage := none }
      "openai" "gpt-4o" "f" 7 (Or.inl rfl)).model = "gpt-4o-2024-08-06" ∧
    (normalizeResponseOpenAILike
      { id := none, created := none, model := none, choices := none,
        usage := none }
      "oauth" "gpt-4o" "f" 7 (Or.inr (Or.inr rfl))).model = "gpt-4o" := by
  refine ⟨(normalizeResponse_model_passthrough _ "openai" "gpt-4o" "f" 7
      (Or.inl rfl)).1 "gpt-4o-2024-08-06" rfl (by decide),
    (normalizeResponse_model_passthrough _ "oauth" "gpt-4o" "f" 7
      (Or.inr (Or.inr rfl))).2 (Or.inl rfl)⟩

/-- Inside an unexpired window with count c ≥ 1 and room for all remaining
calls, every call is allowed and the counter advances by one per call. -/
theorem runCalls_within_window (key : String) (N : Nat) (W t0 : Int)
    (ts : List Int) :
    ∀ (w : Windows) (c : Nat), w key = some ⟨c, t0⟩ → 1 ≤ c →
      (∀ t ∈ ts, t - t0 < W) → c + ts.length ≤ N →
      (∀ r ∈ (runCalls w key N W ts).1, r.allowed = true) ∧
      (runCalls w key N W ts).2 key = some ⟨c + ts.length, t0⟩ := by
  induction ts with
  | nil =>
      intro w c hw _ _ _
      simpa [runCalls] using hw
  | cons t ts ih =>
      intro w c hw hc hin hroom
      have hwin : ¬ (t - t0 ≥ W) := not_le.mpr (hin t (List.mem_cons_self t ts))
      have hcnt : ¬ (c ≥ N) := by
        have : c < N := by
          have := hroom
          simp only [List.length_cons] at this
          omega
        omega
      have hstep :
          check w key N W t =
            (⟨true, (N : Int) - (c + 1), t0 + W⟩,
             w.set key ⟨c + 1, t0⟩) := by
        unfold check
        rw [hw]
        simp [hwin, hcnt]
      have hw' : (w.set key ⟨c + 1, t0⟩) key = some ⟨c + 1, t0⟩ := by
        simp [Windows.set]
      have hrest := ih (w.set key ⟨c + 1, t0⟩) (c + 1) hw' (by omega)
        (fun t ht => hin t (List.mem_cons_of_mem _ ht))
        (by simp only [List.length_cons] at hroom; omega)
      constructor
      · intro r hr
        simp only [runCalls, hstep, List.mem_cons] at hr
        rcases hr with hr' | hr'
        · simp [hr']
        · exact hrest.1 r hr'
      · simp only [runCalls, hstep]
        have := hrest.2
        simpa [Nat.add_assoc, Nat.add_comm, Nat.add_left_comm] using this

/-- C4 amended (max ≥ 1): on a fresh key, with every later call arriving
before the window expires, the first N calls to check are allowed and the
(N+1)th is denied with remaining 0 and resetAt equal to windowStart +
windowMs. -/
theorem rate_limiter_window (key : String) (N : Nat) (hN : 1 ≤ N)
    (W t0 : Int) (ts : List Int) (hlen : ts.length = N - 1)
    (hts : ∀ t ∈ ts, t - t0 < W) (tfin : Int) (htf : tfin - t0 < W) :
    (check emptyWindows key N W t0).1.allowed = true ∧
    (∀ r ∈ (runCalls (check emptyWindows key N W t0).2 key N W ts).1,
      r.allowed = true) ∧
    (check (runCalls (check emptyWindows key N W t0).2 key N W ts).2
      key N W tfin).1 = ⟨false, 0, t0 + W⟩ := by
  have h1 : check emptyWindows key N W t0 =
      (⟨true, (N : Int) - 1, t0 + W⟩, emptyWindows.set key ⟨1, t0⟩) := by
    unfold check emptyWindows
    rfl
  have hw1 : (emptyWindows.set key ⟨1, t0⟩) key = some ⟨1, t0⟩ := by
    simp [Windows.set]
  have hrun := runCalls_within_window key N W t0 ts
    (emptyWindows.set key ⟨1, t0⟩) 1 hw1 le_rfl hts (by omega)
  refine ⟨by rw [h1], by rw [h1]; exact hrun.1, ?_⟩
  rw [h1]
  have hwfin : (runCalls (emptyWindows.set key ⟨1, t0⟩) key N W ts).2 key =
      some ⟨N, t0⟩ := by
    rw [hrun.2, hlen]
    congr 2
    omega
  have hwin : ¬ (tfin - t0 ≥ W) := not_le.mpr htf
  unfold check
  rw [hwfin]
  simp [hwin]

/-- C4 witness: with max 2 and a 60 s window, two calls pass and the third
is denied with remaining 0 and resetAt equal to windowStart + 60000. -/
theorem rate_limiter_window_witness :
    (check emptyWindows "key:a" 2 60000 0).1.allowed = true ∧
    (∀ r ∈ (runCalls (check emptyWindows "key:a" 2 60000 0).2
        "key:a" 2 60000 [10]).1, r.allowed = true) ∧
    (check (runCalls (check emptyWindows "key:a" 2 60000 0).2
        "key:a" 2 60000 [10]).2 "key:a" 2 60000 20).1 =
      ⟨false, 0, 0 + 60000⟩ :=
  rate_limiter_window "key:a" 2 (by decide) 60000 0 [10] (by decide)
    (by decide) 20 (by decide)

/-- C4 counterexample: with max 0 the (0+1)th call — the very first — is
allowed (a fresh window always admits its opening request), so the claim
fails as stated at N = 0. -/
theorem rate_limiter_zero_max_first_call_allowed :
    (check emptyWindows "key:z" 0 60000 0).1 = ⟨true, -1, 60000⟩ ∧
    (check emptyWindows "key:z" 0 60000 0).1.allowed ≠ false := by
  exact ⟨rfl, by decide⟩

/-- The healthMap at process start: no entries. -/
def emptyHealthMap : HealthMap := fun _ => none

/-- Every entry present in the map has its score within [0, 100]. -/
def HealthInv (hm : HealthMap) : Prop :=
  ∀ id st, hm id = some st → 0 ≤ st.score ∧ st.score ≤ 100

theorem applyRecovery_bounds (st : HealthState) (now : Int)
    (h0 : 0 ≤ st.score) (h100 : st.score ≤ 100) :
    0 ≤ (applyRecovery st now).score ∧ (applyRecovery st now).score ≤ 100 := by
  unfold applyRecovery
  by_cases hm : 0 < ((now - st.lastUpdate : Int) : ℚ) / 60000
  · simp only [if_pos hm]
    refine ⟨le_min (by norm_num [MAX_HEALTH_SCORE]) ?_, min_le_left _ _⟩
    have : 0 ≤ ((now - st.lastUpdate : Int) : ℚ) / 60000 * RECOVERY_RATE :=
      mul_nonneg hm.le (by norm_num [RECOVERY_RATE])
    linarith
  · simp only [if_neg hm]
    exact ⟨h0, h100⟩

theorem getHealthState_bounds (hm : HealthMap) (hinv : HealthInv hm)
    (id : String) (now : Int) :
    0 ≤ (getHealthState hm id now).score ∧
    (getHealthState hm id now).score ≤ 100 := by
  unfold getHealthState
  cases h : hm id with
  | none =>
      simp only [h, Option.getD_none]
      exact applyRecovery_bounds _ _ (by norm_num [INITIAL_HEALTH_SCORE])
        (by norm_num [INITIAL_HEALTH_SCORE])
  | some st =>
      simp only [h, Option.getD_some]
      exact applyRecovery_bounds _ _ (hinv id st h).1 (hinv id st h).2

theorem HealthMap.set_inv (hm : HealthMap) (id : String) (s : HealthState)
    (hinv : HealthInv hm) (h0 : 0 ≤ s.score) (h100 : s.score ≤ 100) :
    HealthInv (hm.set id s) := by
  intro j st hj
  by_cases hji : j = id
  · subst hji
    simp only [HealthMap.set, if_pos rfl] at hj
    cases hj
    exact ⟨h0, h100⟩
  · simp only [HealthMap.set, if_neg hji] at hj
    exact hinv j st hj

theorem applyEvent_inv (hm : HealthMap) (e : HealthEvent)
    (hinv : HealthInv hm) : HealthInv (applyEvent hm e) := by
  cases e with
  | success now =>
      have hb := getHealthState_bounds hm hinv "acct" now
      refine HealthMap.set_inv hm _ _ hinv
        (le_min (by norm_num [MAX_HEALTH_SCORE])
          (by have := hb.1; norm_num [SUCCESS_REWARD]; linarith))
        (min_le_left _ _)
  | failure now =>
      have hb := getHealthState_bounds hm hinv "acct" now
      refine HealthMap.set_inv hm _ _ hinv (le_max_left _ _) ?_
      have := hb.2
      simp only [max_le_iff]
      constructor
      · norm_num [MAX_HEALTH_SCORE]
      · norm_num [FAILURE_PENALTY]; linarith
  | rateLimit now =>
      have hb := getHealthState_bounds hm hinv "acct" now
      refine HealthMap.set_inv hm _ _ hinv (le_max_left _ _) ?_
      have := hb.2
      simp only [max_le_iff]
      constructor
      · norm_num [MAX_HEALTH_SCORE]
      · norm_num [RATE_LIMIT_PENALTY]; linarith
  | read now =>
      have hb := getHealthState_bounds hm hinv "acct" now
      exact HealthMap.set_inv hm _ _ hinv hb.1 hb.2

theorem applyEvents_inv (events : List HealthEvent) :
    ∀ hm : HealthMap, HealthInv hm → HealthInv (applyEvents hm events) := by
  induction events with
  | nil => intro hm hinv; exact hinv
  | cons e es ih =>
      intro hm hinv
      exact ih (applyEvent hm e) (applyEvent_inv hm e hinv)

/-- C5: starting from the empty map (so the first touch lazily initializes
the account at score 70), after any sequence of recordSuccess,
recordFailure, recordRateLimit and passive-decay reads, at any times, the
in-memory score stays within [0, 100]. -/
theorem health_score_bounds (events : List HealthEvent) :
    0 ≤ (((applyEvents emptyHealthMap events) "acct").getD
          ⟨INITIAL_HEALTH_SCORE, 0, 0⟩).score ∧
    (((applyEvents emptyHealthMap events) "acct").getD
          ⟨INITIAL_HEALTH_SCORE, 0, 0⟩).score ≤ 100 := by
  have hinv : HealthInv (applyEvents emptyHealthMap events) :=
    applyEvents_inv events emptyHealthMap (by intro _ _ h; cases h)
  cases h : (applyEvents emptyHealthMap events) "acct" with
  | none =>
      simp only [h, Option.getD_none]
      norm_num [INITIAL_HEALTH_SCORE]
  | some st =>
      simp only [h, Option.getD_some]
      exact hinv "acct" st h

theorem firstViable_eq_none (o : RouteOracle) (l : List Candidate)
    (h : ∀ c ∈ l, tryCandidate o c = none) : firstViable o l = none := by
  induction l with
  | nil => rfl
  | cons c cs ih =>
      unfold firstViable
      rw [h c (List.mem_cons_self c cs)]
      exact ih fun d hd => h d (List.mem_cons_of_mem c hd)

/-- C3: resolveRoute considers at most 5 candidates (active models joined
with active providers on the public name, ascending priority); an empty
candidate list raises ModelNotFound (404, model_not_found), and a non-empty
list all of whose candidates fail their SSRF check, credential decryption or
OAuth selection/refresh raises NoAvailableProvider as the 502
provider_error. -/
theorem resolveRoute_fallback_chain (o : RouteOracle) (ms : List ModelRow)
    (ps : List ProviderRow) (name : String) :
    (queryCandidates ms ps name).length ≤ 5 ∧
    (queryCandidates ms ps name = [] →
      resolveRoute o ms ps name = .error (Errors.modelNotFound name) ∧
      (Errors.modelNotFound name).statusCode = 404 ∧
      (Errors.modelNotFound name).code = "model_not_found") ∧
    (queryCandidates ms ps name ≠ [] →
      (∀ c ∈ queryCandidates ms ps name, tryCandidate o c = none) →
      resolveRoute o ms ps name =
        .error (Errors.providerError
          ("No available provider for model " ++ name)) ∧
      (Errors.providerError
          ("No available provider for model " ++ name)).statusCode = 502 ∧
      (Errors.providerError
          ("No available provider for model " ++ name)).code =
        "provider_error") := by
  refine ⟨?_, ?_, ?_⟩
  · unfold queryCandidates
    exact List.length_take_le 5 _
  · intro hempty
    refine ⟨?_, rfl, rfl⟩
    unfold resolveRoute
    rw [hempty]
  · intro hne hfail
    refine ⟨?_, rfl, rfl⟩
    unfold resolveRoute
    cases hq : queryCandidates ms ps name with
    | nil => exact absurd hq hne
    | cons c cs =>
        rw [hq] at hfail
        have := firstViable_eq_none o (c :: cs) hfail
        simp only [this]

/-- C3 witness: a one-model dataset where the single candidate fails its
SSRF check yields the 502 provider_error, and the 404 branch on a dataset
with no matching model. -/
theorem resolveRoute_fallback_chain_witness :
    resolveRoute
      ⟨fun _ => false, fun _ => none, fun _ => none, fun a _ => .ok a⟩
      [⟨"m1", "p1", "gpt-4o", "gpt-4o-2024-08-06", true, 0, true⟩]
      [⟨"p1", "op", "openai", "http://127.0.0.1:8080", "bearer", none, 30000, true⟩]
      "gpt-4o" =
      .error (Errors.providerError
        ("No available provider for model " ++ "gpt-4o")) ∧
    resolveRoute
      ⟨fun _ => true, fun s => some s, fun _ => none, fun a _ => .ok a⟩
      [] [] "nope" = .error (Errors.modelNotFound "nope") := by
  constructor
  · exact ((resolveRoute_fallback_chain
      ⟨fun _ => false, fun _ => none, fun _ => none, fun a _ => .ok a⟩
      [⟨"m1", "p1", "gpt-4o", "gpt-4o-2024-08-06", true, 0, true⟩]
      [⟨"p1", "op", "openai", "http://127.0.0.1:8080", "bearer", none, 30000, true⟩]
      "gpt-4o").2.2 (by decide) (by decide)).1
  · exact ((resolveRoute_fallback_chain
      ⟨fun _ => true, fun s => some s, fun _ => none, fun a _ => .ok a⟩
      [] [] "nope").2.1 (by decide)).1

theorem splitLines_cons_newline (cs : List Char) :
    splitLines ('\n' :: cs) = ([] :: (splitLines cs).1, (splitLines cs).2) := by
  simp [splitLines]

theorem splitLines_cons (c : Char) (cs : List Char) :
    splitLines (c :: cs) =
      if c = '\n' then ([] :: (splitLines cs).1, (splitLines cs).2)
      else
        match (splitLines cs).1 with
        | [] => ([], c :: (splitLines cs).2)
        | l :: ls => ((c :: l) :: ls, (splitLines cs).2) := rfl

theorem splitLines_cons_other_nil (c : Char) (cs : List Char)
    (hc : ¬ c = '\n') (h : (splitLines cs).1 = []) :
    splitLines (c :: cs) = ([], c :: (splitLines cs).2) := by
  rw [splitLines_cons, if_neg hc, h]

theorem splitLines_cons_other_cons (c : Char) (cs l : List Char)
    (ls : List (List Char)) (hc : ¬ c = '\n')
    (h : (splitLines cs).1 = l :: ls) :
    splitLines (c :: cs) = ((c :: l) :: ls, (splitLines cs).2) := by
  rw [splitLines_cons, if_neg hc, h]

/-- Splitting a concatenation: the complete lines of x ++ y are the complete
lines of x followed by those of the residual of x prepended to y, and the final
residual is that of the second split. -/
theorem splitLines_append (x y : List Char) :
    splitLines (x ++ y) =
      ((splitLines x).1 ++ (splitLines ((splitLines x).2 ++ y)).1,
       (splitLines ((splitLines x).2 ++ y)).2) := by
  induction x with
  | nil => simp [splitLines]
  | cons c cs ih =>
      by_cases hc : c = '\n'
      · subst hc
        rw [List.cons_append, splitLines_cons_newline, splitLines_cons_newline,
          ih]
        simp
      · rcases h1 : (splitLines cs).1 with _ | ⟨l, ls⟩
        · rw [List.cons_append, splitLines_cons_other_nil c cs hc h1]
          rcases h2 : (splitLines ((splitLines cs).2 ++ y)).1 with _ | ⟨m, ms⟩
          · have hxy : (splitLines (cs ++ y)).1 = [] := by
              rw [ih, h1, h2]
              rfl
            rw [splitLines_cons_other_nil c (cs ++ y) hc hxy]
            have hR := splitLines_cons_other_nil c ((splitLines cs).2 ++ y)
              hc h2
            simp only [List.cons_append, hR, ih]
            simp
          · have hxy : (splitLines (cs ++ y)).1 = m :: ms := by
              rw [ih, h1, h2]
              rfl
            rw [splitLines_cons_other_cons c (cs ++ y) m ms hc hxy]
            have hR := splitLines_cons_other_cons c ((splitLines cs).2 ++ y)
              m ms hc h2
            simp only [List.cons_append, hR, ih]
            simp
        · rw [List.cons_append, splitLines_cons_other_cons c cs l ls hc h1]
          have hxy : (splitLines (cs ++ y)).1 =
              l :: (ls ++ (splitLines ((splitLines cs).2 ++ y)).1) := by
            rw [ih, h1]
            rfl
          rw [splitLines_cons_other_cons c (cs ++ y) _ _ hc hxy]
          rw [ih]
          simp

/-- C8: the stream transformer is a byte-stream homomorphism: for chunks cut
on UTF-8 boundaries (so the streaming decoder yields exactly the split
character sequences), feeding a ++ b through one transform call produces the
same residual buffer and exactly the concatenated output of feeding a and
then b through the same transformer state, for every per-frame JSON
translation. -/
theorem transformStep_append (jsonEmit : List Char → Option (List Char))
    (buffer a b : List Char) :
    transformStep jsonEmit buffer (a ++ b) =
      ((transformStep jsonEmit (transformStep jsonEmit buffer a).1 b).1,
       (transformStep jsonEmit buffer a).2 ++
         (transformStep jsonEmit (transformStep jsonEmit buffer a).1 b).2) := by
  unfold transformStep
  rw [← List.append_assoc, splitLines_append (buffer ++ a) b]
  simp

theorem applyRecovery_lastUsed (st : HealthState) (now : Int) :
    (applyRecovery st now).lastUsed = st.lastUsed := by
  unfold applyRecovery
  by_cases hm : 0 < ((now - st.lastUpdate : Int) : ℚ) / 60000
  · simp only [if_pos hm]
  · simp only [if_neg hm]

theorem applyRecovery_idem (st : HealthState) (now : Int) :
    applyRecovery (applyRecovery st now) now = applyRecovery st now := by
  unfold applyRecovery
  by_cases hm : 0 < ((now - st.lastUpdate : Int) : ℚ) / 60000
  · simp only [if_pos hm]
    norm_num
  · simp only [if_neg hm, if_neg hm]

theorem getHealthState_touch (hm : HealthMap) (j id : String) (now : Int) :
    getHealthState (touchHealth hm j now) id now = getHealthState hm id now := by
  by_cases hji : id = j
  · subst hji
    unfold getHealthState touchHealth
    simp only [HealthMap.set, if_pos rfl, Option.getD_some]
    exact applyRecovery_idem _ _
  · unfold getHealthState touchHealth
    simp only [HealthMap.set, if_neg hji]

theorem getHealthState_touchAll (l : List OAuthAccountRow) :
    ∀ (hm : HealthMap) (id : String) (now : Int),
      getHealthState (touchAll l hm now) id now = getHealthState hm id now := by
  induction l with
  | nil => intro hm id now; rfl
  | cons a as ih =>
      intro hm id now
      show getHealthState (touchAll as (touchHealth hm a.id now) now) id now = _
      rw [ih (touchHealth hm a.id now) id now, getHealthState_touch]

theorem lastUsedObs_touch (hm : HealthMap) (j id : String) (now : Int) :
    lastUsedObs (touchHealth hm j now) id = lastUsedObs hm id := by
  by_cases hji : id = j
  · subst hji
    have hset : touchHealth hm id now id = some (getHealthState hm id now) := by
      unfold touchHealth
      simp [HealthMap.set]
    unfold lastUsedObs
    rw [hset, Option.getD_some]
    unfold getHealthState
    rw [applyRecovery_lastUsed]
    cases h : hm id <;> simp [h]
  · unfold lastUsedObs touchHealth
    simp only [HealthMap.set, if_neg hji]

theorem lastUsedObs_touchAll (l : List OAuthAccountRow) :
    ∀ (hm : HealthMap) (id : String) (now : Int),
      lastUsedObs (touchAll l hm now) id = lastUsedObs hm id := by
  induction l with
  | nil => intro hm id now; rfl
  | cons a as ih =>
      intro hm id now
      show lastUsedObs (touchAll as (touchHealth hm a.id now) now) id = _
      rw [ih (touchHealth hm a.id now) id now, lastUsedObs_touch]

theorem pickHealthiest_spec (score : String → ℚ) (l : List OAuthAccountRow) :
    ∀ best : OAuthAccountRow,
      pickHealthiest score best l ∈ best :: l ∧
      score best.id ≤ score (pickHealthiest score best l).id ∧
      ∀ b ∈ l, score b.id ≤ score (pickHealthiest score best l).id := by
  induction l with
  | nil =>
      intro best
      refine ⟨List.mem_cons_self _ _, le_rfl, ?_⟩
      intro b hb
      cases hb
  | cons a as ih =>
      intro best
      rw [show pickHealthiest score best (a :: as) =
        pickHealthiest score (if score best.id < score a.id then a else best) as
        from rfl]
      by_cases hlt : score best.id < score a.id
      · simp only [if_pos hlt]
        obtain ⟨ihmem, ihbest, ihall⟩ := ih a
        refine ⟨?_, hlt.le.trans ihbest, ?_⟩
        · rcases List.mem_cons.mp ihmem with hmem | hmem
          · rw [hmem]
            exact List.mem_cons_of_mem _ (List.mem_cons_self _ _)
          · exact List.mem_cons_of_mem _ (List.mem_cons_of_mem _ hmem)
        · intro b hb
          rcases List.mem_cons.mp hb with hb' | hb'
          · rw [hb']
            exact ihbest
          · exact ihall b hb'
      · simp only [if_neg hlt]
        obtain ⟨ihmem, ihbest, ihall⟩ := ih best
        refine ⟨?_, ihbest, ?_⟩
        · rcases List.mem_cons.mp ihmem with hmem | hmem
          · rw [hmem]
            exact List.mem_cons_self _ _
          · exact List.mem_cons_of_mem _ (List.mem_cons_of_mem _ hmem)
        · intro b hb
          rcases List.mem_cons.mp hb with hb' | hb'
          · rw [hb']
            exact (not_lt.mp hlt).trans ihbest
          · exact ihall b hb'

/-- C9: when every active account of the provider scores below the usable
threshold 20, selectBestAccount returns an account with the maximal current
(decayed) score but performs no selection mark: no lastUsedAt DB write is
issued and the observable in-memory last_used values are all unchanged —
those updates happen only on the usable-partition composite-score path. -/
theorem selectBestAccount_all_unhealthy (table : List OAuthAccountRow)
    (hm : HealthMap) (providerId : String) (now : Int)
    (hne : accountQuery table providerId ≠ [])
    (hlow : ∀ a ∈ accountQuery table providerId,
      (getHealthState hm a.id now).score < MIN_USABLE_SCORE) :
    (selectBestAccount table hm providerId now).dbLastUsedWrites = [] ∧
    (∀ id, lastUsedObs (selectBestAccount table hm providerId now).healthMap id
      = lastUsedObs hm id) ∧
    ∃ a, (selectBestAccount table hm providerId now).selected = some a ∧
      a ∈ accountQuery table providerId ∧
      ∀ b ∈ accountQuery table providerId,
        (getHealthState hm b.id now).score ≤ (getHealthState hm a.id now).score := by
  cases hq : accountQuery table providerId with
  | nil => exact absurd hq hne
  | cons a0 rest =>
      have hscore : ∀ id, (getHealthState (touchAll (a0 :: rest) hm now) id now).score
          = (getHealthState hm id now).score := by
        intro id
        rw [getHealthState_touchAll]
      have husable :
          ((a0 :: rest).filter fun a =>
            decide (MIN_USABLE_SCORE ≤
              (getHealthState (touchAll (a0 :: rest) hm now) a.id now).score)) = [] := by
        rw [List.filter_eq_nil_iff]
        rw [hq] at hlow
        intro a ha
        simp only [decide_eq_true_eq, hscore]
        exact not_le.mpr (hlow a ha)
      have hsel : selectBestAccount table hm providerId now =
          ⟨some (pickHealthiest
              (fun id => (getHealthState (touchAll (a0 :: rest) hm now) id now).score)
              a0 rest),
            touchAll (a0 :: rest) hm now, []⟩ := by
        unfold selectBestAccount
        rw [hq]
        simp only [husable]
      refine ⟨by rw [hsel], ?_, ?_⟩
      · intro id
        rw [hsel]
        exact lastUsedObs_touchAll (a0 :: rest) hm id now
      · obtain ⟨hmem, _, hall⟩ := pickHealthiest_spec
          (fun id => (getHealthState (touchAll (a0 :: rest) hm now) id now).score)
          rest a0
        refine ⟨pickHealthiest
            (fun id => (getHealthState (touchAll (a0 :: rest) hm now) id now).score)
            a0 rest, by rw [hsel], hq ▸ hmem, ?_⟩
        intro b hb
        rcases List.mem_cons.mp hb with hb' | hb'
        · have hfirst := (pickHealthiest_spec
            (fun id => (getHealthState (touchAll (a0 :: rest) hm now) id now).score)
            rest a0).2.1
          rw [hb']
          simpa only [hscore] using hfirst
        · have hrest := hall b hb'
          simpa only [hscore] using hrest

/-- C9 witness: two low-scoring active accounts; the selector returns one
with the top score, writes nothing to the DB, and leaves last_used alone. -/
theorem selectBestAccount_all_unhealthy_witness :
    (selectBestAccount
      [⟨"a1", "p", "t1", "r1", 0, 0, true⟩, ⟨"a2", "p", "t2", "r2", 0, 5, true⟩]
      (fun _ => some ⟨10, 0, 4⟩) "p" 0).dbLastUsedWrites = [] ∧
    (∀ id, lastUsedObs (selectBestAccount
      [⟨"a1", "p", "t1", "r1", 0, 0, true⟩, ⟨"a2", "p", "t2", "r2", 0, 5, true⟩]
      (fun _ => some ⟨10, 0, 4⟩) "p" 0).healthMap id
        = lastUsedObs (fun _ => some ⟨10, 0, 4⟩) id) ∧
    ∃ a, (selectBestAccount
      [⟨"a1", "p", "t1", "r1", 0, 0, true⟩, ⟨"a2", "p", "t2", "r2", 0, 5, true⟩]
      (fun _ => some ⟨10, 0, 4⟩) "p" 0).selected = some a ∧
      a ∈ accountQuery
        [⟨"a1", "p", "t1", "r1", 0, 0, true⟩, ⟨"a2", "p", "t2", "r2", 0, 5, true⟩]
        "p" ∧
      ∀ b ∈ accountQuery
        [⟨"a1", "p", "t1", "r1", 0, 0, true⟩, ⟨"a2", "p", "t2", "r2", 0, 5, true⟩]
        "p",
        (getHealthState (fun _ => some ⟨10, 0, 4⟩) b.id 0).score ≤
          (getHealthState (fun _ => some ⟨10, 0, 4⟩) a.id 0).score := by
  refine selectBestAccount_all_unhealthy _ _ "p" 0 (by decide) ?_
  intro a _
  norm_num [getHealthState, applyRecovery, MIN_USABLE_SCORE]

end Gateway
